import Mathlib

/-!
Verification of the KiCad eeschema collector/pin fragment
(`eeschema/ee_collectors.h`, `eeschema/lib_pin.h`) as a shallow embedding.

Conventions of the embedding:
* `wxPoint` becomes `Int × Int`; C++ `int` becomes `Int` with explicit
  `% 2^32` where an unsigned conversion matters.
* Class instances become Lean structures; member functions become functions
  taking and returning the structure.
* Raw pointers that may be `NULL` become `Option`.
* Member function bodies that live in the header are translated from the
  header; bodies that live in `.cpp` files outside this fragment are
  modelled from the specification and say so in their doc comment.
-/

/-- `wxPoint`: a 2-D point with integer coordinates. -/
abbrev wxPoint : Type := Int × Int

/-- `wxDefaultPosition` is `wxPoint(-1, -1)`. -/
def wxDefaultPosition : wxPoint := (-1, -1)

/-- `KICAD_T`: the Type Tag enumeration identifying the concrete kind of a
schematic item.  Embedded as `Nat`; a filter list is a `List KICAD_T`
(the C++ `EOT` array terminator becomes the end of the list). -/
abbrev KICAD_T : Type := Nat

/-- C++ conversion of a (64-bit-safe) signed `int` value to `unsigned`:
reduction modulo `2^32`, yielding a natural number. -/
def cppUInt (i : Int) : Nat := (i % (4294967296 : Int)).toNat

/-- `EDA_ITEM` / `SCH_ITEM`: a scan target in the schematic item graph.
Carries the fields the collectors consult: its Type Tag, symbol-editor
unit (`m_Unit`) and DeMorgan variant (`m_Convert`) scoping (0 = common to
all), a hit-test routine parameterised by test position and threshold
(per-node geometry is an external collaborator, see spec section 6), the
two endpoints when the item is of a line/wire-segment kind, its position,
its searchable text, and its child sub-items (containers such as symbols
hold sub-items). -/
inductive EDA_ITEM : Type where
  | mk : KICAD_T → Int → Int → (wxPoint → Int → Bool) →
      Option (wxPoint × wxPoint) → wxPoint → String → List EDA_ITEM → EDA_ITEM

/-- The item's Type Tag (`EDA_ITEM::Type()`). -/
def EDA_ITEM.typeId : EDA_ITEM → KICAD_T
  | .mk t _ _ _ _ _ _ _ => t

/-- The item's symbol unit (`m_Unit`, 0 = common to all units). -/
def EDA_ITEM.unit : EDA_ITEM → Int
  | .mk _ u _ _ _ _ _ _ => u

/-- The item's DeMorgan variant (`m_Convert`, 0 = common to all variants). -/
def EDA_ITEM.convert : EDA_ITEM → Int
  | .mk _ _ c _ _ _ _ _ => c

/-- The item's hit-test routine against a position and a threshold. -/
def EDA_ITEM.hitTest : EDA_ITEM → wxPoint → Int → Bool
  | .mk _ _ _ h _ _ _ _ => h

/-- The item's endpoints when it is a line/wire segment, else `none`. -/
def EDA_ITEM.lineEnds : EDA_ITEM → Option (wxPoint × wxPoint)
  | .mk _ _ _ _ l _ _ _ => l

/-- The item's position. -/
def EDA_ITEM.pos : EDA_ITEM → wxPoint
  | .mk _ _ _ _ _ p _ _ => p

/-- The item's searchable text. -/
def EDA_ITEM.text : EDA_ITEM → String
  | .mk _ _ _ _ _ _ s _ => s

/-- The item's child sub-items. -/
def EDA_ITEM.children : EDA_ITEM → List EDA_ITEM
  | .mk _ _ _ _ _ _ _ ch => ch

mutual

/-- Modelled from the spec: the Item Scanner's traversal order over one
root (the body of `EDA_ITEM::Visit` / `IterateForward` is not part of this
fragment).  Document order: the container before its children, children in
stored order; every reachable node visited exactly once. -/
def scanItem : EDA_ITEM → List EDA_ITEM
  | .mk t u c h l p s ch => .mk t u c h l p s ch :: scanList ch

/-- Modelled from the spec: traversal of a stored child list, in order. -/
def scanList : List EDA_ITEM → List EDA_ITEM
  | [] => []
  | i :: is => scanItem i ++ scanList is

end

/-- `EE_COLLECTOR` (with the `COLLECTOR` base-class state it uses): the
collected list `m_List`, the unit and variant filters, the hit-test
threshold and the reference position of the last collection. -/
structure EE_COLLECTOR where
  m_List : List EDA_ITEM
  m_Unit : Int
  m_Convert : Int
  m_Threshold : Int
  m_RefPos : wxPoint

/-- `EE_COLLECTOR::operator[]`, translated from the header:
`if( (unsigned)aIndex < (unsigned)GetCount() ) return m_List[aIndex];
return NULL;` — both operands converted to `unsigned`. -/
def EE_COLLECTOR.opIndex (c : EE_COLLECTOR) (aIndex : Int) : Option EDA_ITEM :=
  if cppUInt aIndex < cppUInt (Int.ofNat c.m_List.length) then
    c.m_List.get? aIndex.toNat
  else
    none

/-- Modelled from the spec: the matching test of `EE_COLLECTOR::Inspect`
(its body is not part of this fragment).  A node matches if the hit test
at the reference position succeeds within the configured threshold AND its
unit is 0 (common to all) or equals the requested unit AND its variant is
0 or equals the requested variant. -/
def inspectMatch (aThreshold : Int) (aPos : wxPoint) (aUnit aConvert : Int)
    (it : EDA_ITEM) : Bool :=
  it.hitTest aPos aThreshold &&
    (it.unit == 0 || it.unit == aUnit) &&
    (it.convert == 0 || it.convert == aConvert)

/-- Modelled from the spec: `EE_COLLECTOR::Collect` (its body is not part
of this fragment).  Stores the unit/variant filters and the reference
position, then accumulates matches in filter-priority order: for each
Type Tag of the filter list in order, the scanned nodes of that tag that
pass `inspectMatch`, in traversal order. -/
def EE_COLLECTOR.Collect (c : EE_COLLECTOR) (aItem : EDA_ITEM)
    (aFilterList : List KICAD_T) (aPos : wxPoint)
    (aUnit aConvert : Int) : EE_COLLECTOR :=
  { c with
    m_Unit := aUnit
    m_Convert := aConvert
    m_RefPos := aPos
    m_List := aFilterList.flatMap fun t =>
      (scanItem aItem).filter fun it =>
        it.typeId == t && inspectMatch c.m_Threshold aPos aUnit aConvert it }

/-- The endpoints of an item as a list: both ends of a line segment,
empty for non-line items. -/
def EDA_ITEM.endPoints (it : EDA_ITEM) : List wxPoint :=
  match it.lineEnds with
  | some (s, e) => [s, e]
  | none => []

/-- The distinct endpoints shared by two items. -/
def sharedEndPoints (a b : EDA_ITEM) : List wxPoint :=
  (a.endPoints.filter fun q => decide (q ∈ b.endPoints)).dedup

/-- Modelled from the spec: `EE_COLLECTOR::IsCorner` (its body is not part
of this fragment).  True iff the collected set contains exactly two items,
both of a line/wire-segment kind, sharing exactly one endpoint, namely the
tested reference position. -/
def EE_COLLECTOR.IsCorner (c : EE_COLLECTOR) : Bool :=
  match c.m_List with
  | [a, b] =>
      a.lineEnds.isSome && b.lineEnds.isSome &&
        decide (sharedEndPoints a b = [c.m_RefPos])
  | _ => false

/-- `SCH_FIND_COLLECTOR_DATA`: the data container associated with an item
found by the Find Collector — the position of the found item, the
human-readable sheet path, and the parent object when the found item is a
child object (`NULL` becomes `none`). -/
structure SCH_FIND_COLLECTOR_DATA where
  m_position : wxPoint
  m_sheetPath : String
  m_parent : Option EDA_ITEM

/-- The default-constructed `SCH_FIND_COLLECTOR_DATA`, translated from the
header: `wxDefaultPosition`, `wxEmptyString`, `NULL`. -/
def SCH_FIND_COLLECTOR_DATA.emptyData : SCH_FIND_COLLECTOR_DATA :=
  { m_position := wxDefaultPosition, m_sheetPath := "", m_parent := none }

/-- `SCH_FIND_REPLACE_DATA` (declared in `dialog_schematic_find.h`, not
part of this fragment), modelled from the spec's Search Specification:
the search text, the replacement text, the match-case and whole-word
flags, whether text is treated as a replace target, and the wraparound
flag. -/
structure SCH_FIND_REPLACE_DATA where
  m_findString : String
  m_replaceString : String
  m_matchCase : Bool
  m_wholeWord : Bool
  m_replaceTarget : Bool
  m_wrap : Bool

/-- `SCH_FIND_REPLACE_DATA::IsWrapping`: the wraparound flag. -/
def SCH_FIND_REPLACE_DATA.IsWrapping (d : SCH_FIND_REPLACE_DATA) : Bool :=
  d.m_wrap

/-- Modelled from the spec: `SCH_FIND_REPLACE_DATA::ChangesCompare` (its
body is not part of this fragment).  True iff a comparison-relevant field
differs: the search text, the match-case flag, the whole-word flag or the
replace-target flag.  The wraparound flag is not comparison-relevant (it
affects index semantics, not match membership) and is compared separately
by `IsSearchRequired`. -/
def SCH_FIND_REPLACE_DATA.ChangesCompare
    (d other : SCH_FIND_REPLACE_DATA) : Bool :=
  d.m_findString != other.m_findString ||
    d.m_matchCase != other.m_matchCase ||
    d.m_wholeWord != other.m_wholeWord ||
    d.m_replaceTarget != other.m_replaceTarget

/-- Whether the character sequence `f` occurs as a contiguous
subsequence of `t`. -/
def containsSeq (f : List Char) : List Char → Bool
  | [] => f.isEmpty
  | c :: t => f.isPrefixOf (c :: t) || containsSeq f t

/-- Modelled from the spec: whether a search specification matches a text
field.  Case folding is applied character by character unless match-case
is set; with whole-word set the whole field must equal the search text,
otherwise any substring occurrence matches. -/
def textMatches (d : SCH_FIND_REPLACE_DATA) (s : String) : Bool :=
  let f := if d.m_matchCase then d.m_findString.data
           else d.m_findString.data.map Char.toLower
  let t := if d.m_matchCase then s.data else s.data.map Char.toLower
  if d.m_wholeWord then t == f else containsSeq f t

/-- A sheet instance of the design hierarchy as the Find Collector sees
it: its human-readable path and the items it contains. -/
structure SHEET_INSTANCE where
  path : String
  items : List EDA_ITEM

/-- `SCH_FIND_COLLECTOR` (with the `COLLECTOR` base-class state it uses):
the collected item list, the data record per found item, the stored
search criteria, the current found-item index, the force-search flag and
the last known library change hash. -/
structure SCH_FIND_COLLECTOR where
  m_List : List EDA_ITEM
  m_data : List SCH_FIND_COLLECTOR_DATA
  m_findReplaceData : SCH_FIND_REPLACE_DATA
  m_foundIndex : Int
  m_forceSearch : Bool
  m_lib_hash : Int

/-- `SCH_FIND_COLLECTOR::Empty`, translated from the header: resets
`m_foundIndex` to 0, clears the collected list (`COLLECTOR::Empty()`)
and clears `m_data`. -/
def SCH_FIND_COLLECTOR.Empty (c : SCH_FIND_COLLECTOR) : SCH_FIND_COLLECTOR :=
  { c with m_foundIndex := 0, m_List := [], m_data := [] }

/-- `SCH_FIND_COLLECTOR::SetForceSearch`, translated from the header. -/
def SCH_FIND_COLLECTOR.SetForceSearch (c : SCH_FIND_COLLECTOR)
    (doSearch : Bool) : SCH_FIND_COLLECTOR :=
  { c with m_forceSearch := doSearch }

/-- `SCH_FIND_COLLECTOR::SetFoundIndex`, translated from the header:
`m_foundIndex = ( (unsigned) aIndex < m_data.size() ) ? aIndex : 0;`. -/
def SCH_FIND_COLLECTOR.SetFoundIndex (c : SCH_FIND_COLLECTOR)
    (aIndex : Int) : SCH_FIND_COLLECTOR :=
  { c with m_foundIndex :=
      if cppUInt aIndex < c.m_data.length then aIndex else 0 }

/-- `SCH_FIND_COLLECTOR::IncrementIndex`, translated from the header:
`m_foundIndex += 1;`. -/
def SCH_FIND_COLLECTOR.IncrementIndex
    (c : SCH_FIND_COLLECTOR) : SCH_FIND_COLLECTOR :=
  { c with m_foundIndex := c.m_foundIndex + 1 }

/-- `SCH_FIND_COLLECTOR::IsSearchRequired`, translated from the header:
`return m_findReplaceData.ChangesCompare( aFindReplaceData ) ||
m_forceSearch || (m_findReplaceData.IsWrapping() !=
aFindReplaceData.IsWrapping());`. -/
def SCH_FIND_COLLECTOR.IsSearchRequired (c : SCH_FIND_COLLECTOR)
    (aFindReplaceData : SCH_FIND_REPLACE_DATA) : Bool :=
  c.m_findReplaceData.ChangesCompare aFindReplaceData || c.m_forceSearch ||
    (c.m_findReplaceData.IsWrapping != aFindReplaceData.IsWrapping)

/-- Modelled from the spec: `SCH_FIND_COLLECTOR::PassedEnd` (its body is
not part of this fragment).  True iff the cursor has advanced beyond the
last Found-Item Record with wraparound disabled. -/
def SCH_FIND_COLLECTOR.PassedEnd (c : SCH_FIND_COLLECTOR) : Bool :=
  !c.m_findReplaceData.IsWrapping &&
    decide ((c.m_data.length : Int) ≤ c.m_foundIndex)

/-- Modelled from the spec: `SCH_FIND_COLLECTOR::UpdateIndex` (its body is
not part of this fragment).  Re-validates the cursor against the record
sequence: when the cursor has moved past the last record and wraparound is
enabled it wraps to index 0; otherwise it is left for `PassedEnd` to
flag. -/
def SCH_FIND_COLLECTOR.UpdateIndex (c : SCH_FIND_COLLECTOR) : SCH_FIND_COLLECTOR :=
  if c.m_findReplaceData.IsWrapping &&
      decide ((c.m_data.length : Int) ≤ c.m_foundIndex) then
    { c with m_foundIndex := 0 }
  else
    c

/-- Modelled from the spec: `SCH_FIND_COLLECTOR::GetFindData` (its body is
not part of this fragment).  Returns the associated data at the index when
it is within the list limits, otherwise an empty data item. -/
def SCH_FIND_COLLECTOR.GetFindData (c : SCH_FIND_COLLECTOR)
    (aIndex : Int) : SCH_FIND_COLLECTOR_DATA :=
  if 0 ≤ aIndex ∧ aIndex < (c.m_data.length : Int) then
    c.m_data.getD aIndex.toNat SCH_FIND_COLLECTOR_DATA.emptyData
  else
    SCH_FIND_COLLECTOR_DATA.emptyData

/-- Modelled from the spec: `SCH_FIND_COLLECTOR::GetItem(aFindData)` (its
body is not part of this fragment).  When the current index is valid,
returns the current item and places its associated data; otherwise
returns `NULL` and leaves the caller's data object unchanged.  The C++
in-out reference parameter becomes an explicit pair of results. -/
def SCH_FIND_COLLECTOR.GetItemData (c : SCH_FIND_COLLECTOR)
    (aFindData : SCH_FIND_COLLECTOR_DATA) :
    Option EDA_ITEM × SCH_FIND_COLLECTOR_DATA :=
  if 0 ≤ c.m_foundIndex ∧ c.m_foundIndex < (c.m_List.length : Int) then
    (c.m_List.get? c.m_foundIndex.toNat, c.GetFindData c.m_foundIndex)
  else
    (none, aFindData)

/-- Modelled from the spec: the text substitution performed by
`ReplaceItem`: every occurrence of the search text in the field is
replaced by the replacement text. -/
def performReplace (d : SCH_FIND_REPLACE_DATA) (s : String) : String :=
  s.replace d.m_findString d.m_replaceString

/-- Replace an item's text field. -/
def EDA_ITEM.withText (it : EDA_ITEM) (s : String) : EDA_ITEM :=
  match it with
  | .mk t u c h l p _ ch => .mk t u c h l p s ch

/-- Modelled from the spec: `SCH_FIND_COLLECTOR::ReplaceItem` (its body is
not part of this fragment).  Returns `false` when the current cursor is
out of range or the item at the cursor no longer matches the stored
search criteria (stale cache); otherwise performs the text substitution
on that item, marks the cache stale (force search) and returns `true`.
The boolean result is paired with the updated collector state. -/
def SCH_FIND_COLLECTOR.ReplaceItem
    (c : SCH_FIND_COLLECTOR) : Bool × SCH_FIND_COLLECTOR :=
  if 0 ≤ c.m_foundIndex ∧ c.m_foundIndex < (c.m_List.length : Int) then
    match c.m_List.get? c.m_foundIndex.toNat with
    | some item =>
        if textMatches c.m_findReplaceData item.text then
          (true,
            { c with
              m_List := c.m_List.set c.m_foundIndex.toNat
                (item.withText (performReplace c.m_findReplaceData item.text))
              m_forceSearch := true })
        else
          (false, c)
    | none => (false, c)
  else
    (false, c)

/-- Modelled from the spec: `SCH_FIND_COLLECTOR::Collect` (its body is not
part of this fragment).  Discards prior results, scans the given sheet
instances in order, and for each reachable item whose text matches the
criteria appends the item and a Found-Item Record carrying its position,
the owning sheet's human-readable path and no parent (sub-object parents
are beyond this model).  Stores the criteria, stamps the current library
hash, resets the cursor and clears the force-search flag. -/
def SCH_FIND_COLLECTOR.Collect (c : SCH_FIND_COLLECTOR)
    (aFindReplaceData : SCH_FIND_REPLACE_DATA)
    (sheets : List SHEET_INSTANCE) (libHash : Int) : SCH_FIND_COLLECTOR :=
  let found := sheets.flatMap fun sh =>
    ((scanList sh.items).filter fun it =>
      textMatches aFindReplaceData it.text).map fun it => (it, sh.path)
  { c.Empty with
    m_List := found.map Prod.fst
    m_data := found.map fun x =>
      { m_position := x.1.pos, m_sheetPath := x.2, m_parent := none }
    m_findReplaceData := aFindReplaceData
    m_foundIndex := 0
    m_forceSearch := false
    m_lib_hash := libHash }

/-- One cursor advance of the Find Collector, as the callers perform it:
`IncrementIndex()` followed by `UpdateIndex()`. -/
def SCH_FIND_COLLECTOR.advanceIndex
    (c : SCH_FIND_COLLECTOR) : SCH_FIND_COLLECTOR :=
  c.IncrementIndex.UpdateIndex

/-- `ElectricPinType`: the pin electrical types used in ERC tests,
translated from `lib_pin.h`. -/
inductive ElectricPinType : Type where
  | PIN_INPUT
  | PIN_OUTPUT
  | PIN_BIDI
  | PIN_TRISTATE
  | PIN_PASSIVE
  | PIN_UNSPECIFIED
  | PIN_POWER_IN
  | PIN_POWER_OUT
  | PIN_OPENCOLLECTOR
  | PIN_OPENEMITTER
  | PIN_NC
  | PIN_NMAX
  deriving DecidableEq

/-- `PIN_INVISIBLE`: the pin visibility flag bit (set makes the pin
invisible), translated from `lib_pin.h`. -/
def PIN_INVISIBLE : Nat := 1

/-- `LIB_PIN`: the pin entity, with the data fields of `lib_pin.h` that
the embedded operations consult (position, length, orientation, shape,
electrical type, attribute word, name, number and the two text sizes). -/
structure LIB_PIN where
  m_position : wxPoint
  m_length : Int
  m_orientation : Int
  m_shape : Int
  m_width : Int
  m_type : ElectricPinType
  m_attributes : Nat
  m_name : String
  m_number : Int
  m_numTextSize : Int
  m_nameTextSize : Int

/-- `LIB_PIN::GetType`, translated from the header. -/
def LIB_PIN.GetType (p : LIB_PIN) : ElectricPinType := p.m_type

/-- `LIB_PIN::IsVisible`, translated from the header:
`return ( m_attributes & PIN_INVISIBLE ) == 0;`. -/
def LIB_PIN.IsVisible (p : LIB_PIN) : Bool :=
  (p.m_attributes &&& PIN_INVISIBLE) == 0

/-- `LIB_PIN::IsPowerConnection`, translated from the header:
`return !IsVisible() && GetType() == PIN_POWER_IN;`. -/
def LIB_PIN.IsPowerConnection (p : LIB_PIN) : Bool :=
  !p.IsVisible && p.GetType == ElectricPinType.PIN_POWER_IN

/-- Three-way comparison of two character lists by code point, the
embedding of a `<0 / 0 / >0` C-style string comparison. -/
def charListCmp : List Char → List Char → Int
  | [], [] => 0
  | [], _ :: _ => -1
  | _ :: _, [] => 1
  | a :: as, b :: bs =>
      if a.toNat < b.toNat then -1
      else if b.toNat < a.toNat then 1
      else charListCmp as bs

/-- Case-insensitive three-way string comparison, the embedding of
`wxString::CmpNoCase`: both strings are lower-cased character by
character and compared lexicographically. -/
def strCmpNoCase (s t : String) : Int :=
  charListCmp (s.data.map Char.toLower) (t.data.map Char.toLower)

/-- Modelled from the spec: `LIB_PIN::compare` (its body is not part of
this fragment; the header documents the sort order).  Three-way
comparison: by pin number, then pin name case-insensitively, then
horizontal (X) position, then vertical (Y) position. -/
def LIB_PIN.pinCompare (p q : LIB_PIN) : Int :=
  if p.m_number ≠ q.m_number then p.m_number - q.m_number
  else if strCmpNoCase p.m_name q.m_name ≠ 0 then strCmpNoCase p.m_name q.m_name
  else if p.m_position.1 ≠ q.m_position.1 then p.m_position.1 - q.m_position.1
  else p.m_position.2 - q.m_position.2

/-! ## Theorems -/

/-- C10: `IsVisible()` is true iff the `PIN_INVISIBLE` bit (bit 0) of the
pin's attribute word is clear, and `IsPowerConnection()` is true iff the
pin is not visible and its electrical type is `PIN_POWER_IN`; hence a
visible pin, or a pin of any other electrical type, is never reported as
an implicit power connection. -/
theorem C10_visibility_power_connection :
    ∀ p : LIB_PIN,
      (p.IsVisible = true ↔ p.m_attributes.testBit 0 = false) ∧
      (p.IsPowerConnection = true ↔
        p.IsVisible = false ∧ p.m_type = ElectricPinType.PIN_POWER_IN) ∧
      ((p.IsVisible = true ∨ p.m_type ≠ ElectricPinType.PIN_POWER_IN) →
        p.IsPowerConnection = false) := by
  intro p
  have hvis : p.IsVisible = true ↔ p.m_attributes.testBit 0 = false := by
    simp only [LIB_PIN.IsVisible, PIN_INVISIBLE, Nat.and_one_is_mod,
      Nat.testBit_zero, beq_iff_eq, decide_eq_false_iff_not]
    omega
  have hpow : p.IsPowerConnection = true ↔
      p.IsVisible = false ∧ p.m_type = ElectricPinType.PIN_POWER_IN := by
    simp [LIB_PIN.IsPowerConnection, LIB_PIN.GetType]
  refine ⟨hvis, hpow, ?_⟩
  rintro (h | h)
  · cases hp : p.IsPowerConnection
    · rfl
    · exact absurd ((hpow.mp hp).1) (by simp [h])
  · cases hp : p.IsPowerConnection
    · rfl
    · exact absurd ((hpow.mp hp).2) h

/-- C10 witness: a concrete visible pin is not a power connection. -/
theorem C10_visibility_power_connection_witness :
    ({ m_position := (0, 0), m_length := 100, m_orientation := 82,
       m_shape := 0, m_width := 0, m_type := ElectricPinType.PIN_POWER_IN,
       m_attributes := 0, m_name := "VCC", m_number := 1,
       m_numTextSize := 50, m_nameTextSize := 50 } :
        LIB_PIN).IsPowerConnection = false :=
  (C10_visibility_power_connection _).2.2 (Or.inl (by decide))

/-- C7: for an `int`-ranged index `i` and a record list shorter than
`2^31`, `SetFoundIndex(i)` sets the cursor to `i` when
`0 ≤ i < m_data.size()` and to 0 otherwise (negative `i` included, via
the `(unsigned)` conversion), and `Empty()` resets the cursor to 0 while
clearing the record sequence and the collected list. -/
theorem C7_setFoundIndex_and_empty :
    ∀ (c : SCH_FIND_COLLECTOR) (i : Int),
      -2147483648 ≤ i → i < 2147483648 →
      (c.m_data.length : Int) < 2147483648 →
      ((c.SetFoundIndex i).m_foundIndex =
        if 0 ≤ i ∧ i < (c.m_data.length : Int) then i else 0) ∧
      c.Empty.m_foundIndex = 0 ∧ c.Empty.m_data = [] ∧ c.Empty.m_List = [] := by
  intro c i hlo hhi hlen
  refine ⟨?_, rfl, rfl, rfl⟩
  have hcond : cppUInt i < c.m_data.length ↔
      (0 ≤ i ∧ i < (c.m_data.length : Int)) := by
    simp only [cppUInt]
    omega
  simp only [SCH_FIND_COLLECTOR.SetFoundIndex, hcond]

/-- C7 witness: with three records, index 2 is kept and index -1 resets
to 0; `Empty` clears everything. -/
theorem C7_setFoundIndex_and_empty_witness :
    ∃ c : SCH_FIND_COLLECTOR,
      c.m_data.length = 3 ∧
      (c.SetFoundIndex 2).m_foundIndex = 2 ∧
      (c.SetFoundIndex (-1)).m_foundIndex = 0 ∧
      c.Empty.m_foundIndex = 0 ∧ c.Empty.m_data = [] := by
  refine ⟨{ m_List := [],
            m_data := [SCH_FIND_COLLECTOR_DATA.emptyData,
                       SCH_FIND_COLLECTOR_DATA.emptyData,
                       SCH_FIND_COLLECTOR_DATA.emptyData],
            m_findReplaceData :=
              { m_findString := "", m_replaceString := "", m_matchCase := false,
                m_wholeWord := false, m_replaceTarget := false, m_wrap := false },
            m_foundIndex := 0, m_forceSearch := false, m_lib_hash := 0 },
          rfl, ?_, ?_, ?_, ?_⟩
  · have h := C7_setFoundIndex_and_empty
      { m_List := [],
        m_data := [SCH_FIND_COLLECTOR_DATA.emptyData,
                   SCH_FIND_COLLECTOR_DATA.emptyData,
                   SCH_FIND_COLLECTOR_DATA.emptyData],
        m_findReplaceData :=
          { m_findString := "", m_replaceString := "", m_matchCase := false,
            m_wholeWord := false, m_replaceTarget := false, m_wrap := false },
        m_foundIndex := 0, m_forceSearch := false, m_lib_hash := 0 }
      2 (by decide) (by decide) (by norm_num)
    rw [h.1]
    norm_num
  · have h := C7_setFoundIndex_and_empty
      { m_List := [],
        m_data := [SCH_FIND_COLLECTOR_DATA.emptyData,
                   SCH_FIND_COLLECTOR_DATA.emptyData,
                   SCH_FIND_COLLECTOR_DATA.emptyData],
        m_findReplaceData :=
          { m_findString := "", m_replaceString := "", m_matchCase := false,
            m_wholeWord := false, m_replaceTarget := false, m_wrap := false },
        m_foundIndex := 0, m_forceSearch := false, m_lib_hash := 0 }
      (-1) (by decide) (by decide) (by norm_num)
    rw [h.1]
    norm_num
  · rfl
  · rfl

/-- C4: for an `int`-ranged index `i` outside the valid range of the
collected list, `EE_COLLECTOR::operator[]` returns `NULL`,
`SCH_FIND_COLLECTOR::GetFindData(i)` returns the empty (default) data
record, and `GetItem` on an invalid current index returns `NULL` without
updating the caller's data object.  All three operations are total
functions of the state: no invalid-index request aborts. -/
theorem C4_invalid_index_is_safe :
    ∀ (ee : EE_COLLECTOR) (fc : SCH_FIND_COLLECTOR) (i : Int)
      (d : SCH_FIND_COLLECTOR_DATA),
      -2147483648 ≤ i → i < 2147483648 →
      (ee.m_List.length : Int) < 2147483648 →
      ((i < 0 ∨ (ee.m_List.length : Int) ≤ i) → ee.opIndex i = none) ∧
      ((i < 0 ∨ (fc.m_data.length : Int) ≤ i) →
        fc.GetFindData i = SCH_FIND_COLLECTOR_DATA.emptyData) ∧
      ((fc.m_foundIndex < 0 ∨ (fc.m_List.length : Int) ≤ fc.m_foundIndex) →
        fc.GetItemData d = (none, d)) := by
  intro ee fc i d hlo hhi hlen
  refine ⟨?_, ?_, ?_⟩
  · intro hout
    have hcond : ¬ (cppUInt i < cppUInt (Int.ofNat ee.m_List.length)) := by
      simp only [cppUInt, Int.ofNat_eq_natCast]
      omega
    simp only [EE_COLLECTOR.opIndex, hcond, if_false]
  · intro hout
    have hcond : ¬ (0 ≤ i ∧ i < (fc.m_data.length : Int)) := by omega
    simp only [SCH_FIND_COLLECTOR.GetFindData, hcond, if_false]
  · intro hout
    have hcond : ¬ (0 ≤ fc.m_foundIndex ∧
        fc.m_foundIndex < (fc.m_List.length : Int)) := by omega
    simp only [SCH_FIND_COLLECTOR.GetItemData, hcond, if_false]

/-- C4 witness: on concrete one-element collectors with the cursor at -3,
index 5 yields `NULL` / the empty record, and `GetItem` leaves a marker
data object unchanged. -/
theorem C4_invalid_index_is_safe_witness :
    ∃ (ee : EE_COLLECTOR) (fc : SCH_FIND_COLLECTOR)
      (d : SCH_FIND_COLLECTOR_DATA),
      ee.opIndex 5 = none ∧
      fc.GetFindData 5 = SCH_FIND_COLLECTOR_DATA.emptyData ∧
      fc.GetItemData d = (none, d) := by
  refine ⟨{ m_List := [], m_Unit := 0, m_Convert := 0, m_Threshold := 0,
            m_RefPos := (0, 0) },
          { m_List := [],
            m_data := [SCH_FIND_COLLECTOR_DATA.emptyData],
            m_findReplaceData :=
              { m_findString := "", m_replaceString := "", m_matchCase := false,
                m_wholeWord := false, m_replaceTarget := false, m_wrap := false },
            m_foundIndex := -3, m_forceSearch := false, m_lib_hash := 0 },
          { m_position := (7, 7), m_sheetPath := "marker", m_parent := none },
          ?_, ?_, ?_⟩
  · exact (C4_invalid_index_is_safe _
      { m_List := [], m_data := [SCH_FIND_COLLECTOR_DATA.emptyData],
        m_findReplaceData :=
          { m_findString := "", m_replaceString := "", m_matchCase := false,
            m_wholeWord := false, m_replaceTarget := false, m_wrap := false },
        m_foundIndex := -3, m_forceSearch := false, m_lib_hash := 0 }
      5 SCH_FIND_COLLECTOR_DATA.emptyData
      (by decide) (by decide) (by norm_num)).1 (by norm_num)
  · exact (C4_invalid_index_is_safe
      { m_List := [], m_Unit := 0, m_Convert := 0, m_Threshold := 0,
        m_RefPos := (0, 0) } _
      5 SCH_FIND_COLLECTOR_DATA.emptyData
      (by decide) (by decide) (by norm_num)).2.1 (by norm_num)
  · exact (C4_invalid_index_is_safe
      { m_List := [], m_Unit := 0, m_Convert := 0, m_Threshold := 0,
        m_RefPos := (0, 0) } _ 5 _
      (by decide) (by decide) (by norm_num)).2.2 (by norm_num)

/-- C2: `IsSearchRequired(newSpec)` is true iff a comparison-relevant
field of `newSpec` differs from the stored specification, or the
force-search flag is set, or the wraparound flag of `newSpec` differs
from the stored one; after `Collect(spec)` (which clears the force flag
and stamps the library hash), `IsSearchRequired(spec)` is false, and any
mutation of a comparison-relevant field of `spec` makes it true. -/
theorem C2_isSearchRequired_roundtrip :
    ∀ (c : SCH_FIND_COLLECTOR) (spec newSpec : SCH_FIND_REPLACE_DATA)
      (sheets : List SHEET_INSTANCE) (libHash : Int),
      (c.IsSearchRequired newSpec = true ↔
        (c.m_findReplaceData.m_findString ≠ newSpec.m_findString ∨
         c.m_findReplaceData.m_matchCase ≠ newSpec.m_matchCase ∨
         c.m_findReplaceData.m_wholeWord ≠ newSpec.m_wholeWord ∨
         c.m_findReplaceData.m_replaceTarget ≠ newSpec.m_replaceTarget ∨
         c.m_forceSearch = true ∨
         c.m_findReplaceData.m_wrap ≠ newSpec.m_wrap)) ∧
      ((c.Collect spec sheets libHash).IsSearchRequired spec = false) ∧
      (spec.ChangesCompare newSpec = true →
        (c.Collect spec sheets libHash).IsSearchRequired newSpec = true) := by
  intro c spec newSpec sheets libHash
  refine ⟨?_, ?_, ?_⟩
  · simp [SCH_FIND_COLLECTOR.IsSearchRequired,
      SCH_FIND_REPLACE_DATA.ChangesCompare, SCH_FIND_REPLACE_DATA.IsWrapping,
      Bool.or_eq_true, bne_iff_ne, or_assoc]
  · simp [SCH_FIND_COLLECTOR.Collect, SCH_FIND_COLLECTOR.Empty,
      SCH_FIND_COLLECTOR.IsSearchRequired,
      SCH_FIND_REPLACE_DATA.ChangesCompare, SCH_FIND_REPLACE_DATA.IsWrapping]
  · intro hch
    simp [SCH_FIND_COLLECTOR.Collect, SCH_FIND_COLLECTOR.Empty,
      SCH_FIND_COLLECTOR.IsSearchRequired, hch]

/-- C2 witness: after collecting with a concrete specification, no search
is required for that same specification, but toggling the whole-word
flag (a comparison-relevant field) requires one. -/
theorem C2_isSearchRequired_roundtrip_witness :
    ∃ (c : SCH_FIND_COLLECTOR) (spec newSpec : SCH_FIND_REPLACE_DATA),
      (c.Collect spec [] 0).IsSearchRequired spec = false ∧
      (c.Collect spec [] 0).IsSearchRequired newSpec = true := by
  refine ⟨{ m_List := [], m_data := [],
            m_findReplaceData :=
              { m_findString := "old", m_replaceString := "", m_matchCase := false,
                m_wholeWord := false, m_replaceTarget := false, m_wrap := false },
            m_foundIndex := 0, m_forceSearch := true, m_lib_hash := 0 },
          { m_findString := "R1", m_replaceString := "R2", m_matchCase := false,
            m_wholeWord := false, m_replaceTarget := true, m_wrap := false },
          { m_findString := "R1", m_replaceString := "R2", m_matchCase := false,
            m_wholeWord := true, m_replaceTarget := true, m_wrap := false },
          ?_, ?_⟩
  · exact (C2_isSearchRequired_roundtrip _ _
      { m_findString := "R1", m_replaceString := "R2", m_matchCase := false,
        m_wholeWord := true, m_replaceTarget := true, m_wrap := false }
      [] 0).2.1
  · exact (C2_isSearchRequired_roundtrip _ _ _ [] 0).2.2 (by decide)

theorem advanceIndex_m_data (c : SCH_FIND_COLLECTOR) :
    c.advanceIndex.m_data = c.m_data := by
  simp only [SCH_FIND_COLLECTOR.advanceIndex, SCH_FIND_COLLECTOR.UpdateIndex,
    SCH_FIND_COLLECTOR.IncrementIndex]
  split <;> rfl

theorem advanceIndex_m_findReplaceData (c : SCH_FIND_COLLECTOR) :
    c.advanceIndex.m_findReplaceData = c.m_findReplaceData := by
  simp only [SCH_FIND_COLLECTOR.advanceIndex, SCH_FIND_COLLECTOR.UpdateIndex,
    SCH_FIND_COLLECTOR.IncrementIndex]
  split <;> rfl

theorem iterate_advanceIndex_m_data (c : SCH_FIND_COLLECTOR) (k : Nat) :
    (SCH_FIND_COLLECTOR.advanceIndex^[k] c).m_data = c.m_data := by
  induction k with
  | zero => rfl
  | succ n ih =>
      rw [Function.iterate_succ_apply', advanceIndex_m_data, ih]

theorem iterate_advanceIndex_m_findReplaceData
    (c : SCH_FIND_COLLECTOR) (k : Nat) :
    (SCH_FIND_COLLECTOR.advanceIndex^[k] c).m_findReplaceData =
      c.m_findReplaceData := by
  induction k with
  | zero => rfl
  | succ n ih =>
      rw [Function.iterate_succ_apply', advanceIndex_m_findReplaceData, ih]

theorem advanceIndex_foundIndex_of_not_wrapping (c : SCH_FIND_COLLECTOR)
    (hw : c.m_findReplaceData.m_wrap = false) :
    c.advanceIndex.m_foundIndex = c.m_foundIndex + 1 := by
  simp [SCH_FIND_COLLECTOR.advanceIndex, SCH_FIND_COLLECTOR.UpdateIndex,
    SCH_FIND_COLLECTOR.IncrementIndex, SCH_FIND_REPLACE_DATA.IsWrapping, hw]

theorem advanceIndex_foundIndex_of_wrapping (c : SCH_FIND_COLLECTOR)
    (hw : c.m_findReplaceData.m_wrap = true) :
    c.advanceIndex.m_foundIndex =
      if (c.m_data.length : Int) ≤ c.m_foundIndex + 1 then 0
      else c.m_foundIndex + 1 := by
  simp only [SCH_FIND_COLLECTOR.advanceIndex, SCH_FIND_COLLECTOR.UpdateIndex,
    SCH_FIND_COLLECTOR.IncrementIndex, SCH_FIND_REPLACE_DATA.IsWrapping, hw,
    Bool.true_and, decide_eq_true_eq]
  split <;> rfl

/-- C3: starting the Find Collector's cursor at index 0 over a non-empty
record sequence and repeatedly advancing it (`IncrementIndex` followed by
`UpdateIndex`): with wraparound disabled, `PassedEnd()` is true exactly
once the cursor has moved past the last record; with wraparound enabled,
the cursor always equals the advance count modulo the record count (so
advancing past the last record resets it to 0) and `PassedEnd()` stays
false. -/
theorem C3_cursor_navigation :
    ∀ (c : SCH_FIND_COLLECTOR) (k : Nat),
      c.m_data ≠ [] → c.m_foundIndex = 0 →
      (c.m_findReplaceData.m_wrap = false →
        ((SCH_FIND_COLLECTOR.advanceIndex^[k] c).PassedEnd = true ↔
          c.m_data.length ≤ k)) ∧
      (c.m_findReplaceData.m_wrap = true →
        (SCH_FIND_COLLECTOR.advanceIndex^[k] c).m_foundIndex =
          ((k % c.m_data.length : Nat) : Int) ∧
        (SCH_FIND_COLLECTOR.advanceIndex^[k] c).PassedEnd = false) := by
  intro c k hne h0
  have hlen : 0 < c.m_data.length := List.length_pos.mpr hne
  constructor
  · intro hw
    have hidx : ∀ n : Nat,
        (SCH_FIND_COLLECTOR.advanceIndex^[n] c).m_foundIndex = (n : Int) := by
      intro n
      induction n with
      | zero => simpa using h0
      | succ m ih =>
          rw [Function.iterate_succ_apply',
            advanceIndex_foundIndex_of_not_wrapping _
              (by rw [iterate_advanceIndex_m_findReplaceData]; exact hw),
            ih]
          push_cast
          ring
    simp only [SCH_FIND_COLLECTOR.PassedEnd, SCH_FIND_REPLACE_DATA.IsWrapping,
      iterate_advanceIndex_m_findReplaceData, iterate_advanceIndex_m_data,
      hw, hidx k, Bool.not_false, Bool.true_and, decide_eq_true_eq]
    exact_mod_cast Iff.rfl
  · intro hw
    have hidx : ∀ n : Nat,
        (SCH_FIND_COLLECTOR.advanceIndex^[n] c).m_foundIndex =
          ((n % c.m_data.length : Nat) : Int) := by
      intro n
      induction n with
      | zero => simpa [Nat.mod_eq_of_lt hlen] using h0
      | succ m ih =>
          rw [Function.iterate_succ_apply',
            advanceIndex_foundIndex_of_wrapping _
              (by rw [iterate_advanceIndex_m_findReplaceData]; exact hw),
            iterate_advanceIndex_m_data, ih]
          have hmod : m % c.m_data.length < c.m_data.length :=
            Nat.mod_lt _ hlen
          have hsucc : (m + 1) % c.m_data.length =
              (m % c.m_data.length + 1) % c.m_data.length :=
            (Nat.mod_add_mod m c.m_data.length 1).symm
          by_cases hm : m % c.m_data.length + 1 = c.m_data.length
          · rw [if_pos (by exact_mod_cast le_of_eq hm.symm), hsucc, hm,
              Nat.mod_self]
            simp
          · have hlt : m % c.m_data.length + 1 < c.m_data.length := by omega
            rw [if_neg (by exact_mod_cast Nat.not_le.mpr hlt), hsucc,
              Nat.mod_eq_of_lt hlt]
            push_cast
            ring
    refine ⟨hidx k, ?_⟩
    simp [SCH_FIND_COLLECTOR.PassedEnd, SCH_FIND_REPLACE_DATA.IsWrapping,
      iterate_advanceIndex_m_findReplaceData, hw]

/-- C3 witness: with two records and the cursor at 0, two advances pass
the end without wraparound, while with wraparound the cursor is back at
index 0 and `PassedEnd()` is false. -/
theorem C3_cursor_navigation_witness :
    ∃ (cNoWrap cWrap : SCH_FIND_COLLECTOR),
      (SCH_FIND_COLLECTOR.advanceIndex^[2] cNoWrap).PassedEnd = true ∧
      (SCH_FIND_COLLECTOR.advanceIndex^[2] cWrap).m_foundIndex = 0 ∧
      (SCH_FIND_COLLECTOR.advanceIndex^[2] cWrap).PassedEnd = false := by
  refine ⟨{ m_List := [],
            m_data := [SCH_FIND_COLLECTOR_DATA.emptyData,
                       SCH_FIND_COLLECTOR_DATA.emptyData],
            m_findReplaceData :=
              { m_findString := "", m_replaceString := "", m_matchCase := false,
                m_wholeWord := false, m_replaceTarget := false, m_wrap := false },
            m_foundIndex := 0, m_forceSearch := false, m_lib_hash := 0 },
          { m_List := [],
            m_data := [SCH_FIND_COLLECTOR_DATA.emptyData,
                       SCH_FIND_COLLECTOR_DATA.emptyData],
            m_findReplaceData :=
              { m_findString := "", m_replaceString := "", m_matchCase := false,
                m_wholeWord := false, m_replaceTarget := false, m_wrap := true },
            m_foundIndex := 0, m_forceSearch := false, m_lib_hash := 0 },
          ?_, ?_, ?_⟩
  · exact ((C3_cursor_navigation _ 2 (List.cons_ne_nil _ _) rfl).1 rfl).mpr (by decide)
  · have h := (C3_cursor_navigation
      { m_List := [],
        m_data := [SCH_FIND_COLLECTOR_DATA.emptyData,
                   SCH_FIND_COLLECTOR_DATA.emptyData],
        m_findReplaceData :=
          { m_findString := "", m_replaceString := "", m_matchCase := false,
            m_wholeWord := false, m_replaceTarget := false, m_wrap := true },
        m_foundIndex := 0, m_forceSearch := false, m_lib_hash := 0 }
      2 (List.cons_ne_nil _ _) rfl).2 rfl
    rw [h.1]
    decide
  · exact ((C3_cursor_navigation _ 2 (List.cons_ne_nil _ _) rfl).2 rfl).2


/-- C1: every entry of the Selection Collector's result list after
`Collect(root, F, P, unit, convert)` has a Type Tag that appears in `F`,
passes the hit test at `P` within the configured threshold
`m_Threshold`, and has a unit that is 0 (common to all) or equal to the
requested unit, and a variant that is 0 or equal to the requested
variant. -/
theorem C1_collect_entries_match :
    ∀ (c : EE_COLLECTOR) (root : EDA_ITEM) (F : List KICAD_T)
      (aPos : wxPoint) (aUnit aConvert : Int) (e : EDA_ITEM),
      e ∈ (c.Collect root F aPos aUnit aConvert).m_List →
      e.typeId ∈ F ∧
      e.hitTest aPos c.m_Threshold = true ∧
      (e.unit = 0 ∨ e.unit = aUnit) ∧
      (e.convert = 0 ∨ e.convert = aConvert) := by
  intro c root F aPos aUnit aConvert e he
  simp only [EE_COLLECTOR.Collect, List.mem_flatMap, List.mem_filter,
    Bool.and_eq_true, beq_iff_eq] at he
  obtain ⟨t, htF, hscan, ⟨hty, hmatch⟩⟩ := he
  simp only [inspectMatch, Bool.and_eq_true, Bool.or_eq_true, beq_iff_eq]
    at hmatch
  exact ⟨hty ▸ htF, hmatch.1.1, hmatch.1.2, hmatch.2⟩

/-- C1 witness: a concrete collection over one wire item at the origin
yields an entry satisfying all four conditions. -/
theorem C1_collect_entries_match_witness :
    (EDA_ITEM.mk 13 0 0 (fun _ _ => true) none (0, 0) "" []).typeId
        ∈ [(13 : KICAD_T)] ∧
      (EDA_ITEM.mk 13 0 0 (fun _ _ => true) none (0, 0) "" []).hitTest
        (0, 0) 0 = true := by
  have h := C1_collect_entries_match
    { m_List := [], m_Unit := 0, m_Convert := 0, m_Threshold := 0,
      m_RefPos := (0, 0) }
    (EDA_ITEM.mk 13 0 0 (fun _ _ => true) none (0, 0) "" [])
    [(13 : KICAD_T)] (0, 0) 1 1
    (EDA_ITEM.mk 13 0 0 (fun _ _ => true) none (0, 0) "" [])
    (by
      simp [EE_COLLECTOR.Collect, scanItem, scanList, inspectMatch,
        EDA_ITEM.typeId, EDA_ITEM.unit, EDA_ITEM.convert, EDA_ITEM.hitTest])
  exact ⟨h.1, h.2.1⟩

theorem typeId_mem_of_mem_pass (L : List KICAD_T) (root : EDA_ITEM)
    (thr : Int) (aPos : wxPoint) (aUnit aConvert : Int) (e : EDA_ITEM)
    (he : e ∈ L.flatMap fun t => (scanItem root).filter fun it =>
      it.typeId == t && inspectMatch thr aPos aUnit aConvert it) :
    e.typeId ∈ L := by
  simp only [List.mem_flatMap, List.mem_filter, Bool.and_eq_true,
    beq_iff_eq] at he
  obtain ⟨t, htL, _, hty, _⟩ := he
  exact hty ▸ htL

/-- C5: when the filter list is `A ++ B` with `T1` occurring in `A` only
and `T2` occurring in `B` only (so `T1` is listed before `T2`), no match
of type `T2` precedes any match of type `T1` in the result list of
`Collect`, regardless of the items' order in the document: a `T1` entry
at position `i` and a `T2` entry at position `j` satisfy `i < j`. -/
theorem C5_filter_priority_order :
    ∀ (c : EE_COLLECTOR) (root : EDA_ITEM) (A B : List KICAD_T)
      (T1 T2 : KICAD_T) (aPos : wxPoint) (aUnit aConvert : Int)
      (i j : Nat) (e1 e2 : EDA_ITEM),
      T1 ∈ A → T2 ∈ B → T2 ∉ A → T1 ∉ B →
      (c.Collect root (A ++ B) aPos aUnit aConvert).m_List[i]? = some e1 →
      e1.typeId = T1 →
      (c.Collect root (A ++ B) aPos aUnit aConvert).m_List[j]? = some e2 →
      e2.typeId = T2 →
      i < j := by
  intro c root A B T1 T2 aPos aUnit aConvert i j e1 e2
  intro _hT1A _hT2B hT2A hT1B h1 ht1 h2 ht2
  have hr : (c.Collect root (A ++ B) aPos aUnit aConvert).m_List
      = (A.flatMap fun t => (scanItem root).filter fun it =>
          it.typeId == t && inspectMatch c.m_Threshold aPos aUnit aConvert it)
        ++ (B.flatMap fun t => (scanItem root).filter fun it =>
          it.typeId == t && inspectMatch c.m_Threshold aPos aUnit aConvert it) := by
    simp [EE_COLLECTOR.Collect]
  rw [hr] at h1 h2
  have hi : i < (A.flatMap fun t => (scanItem root).filter fun it =>
      it.typeId == t && inspectMatch c.m_Threshold aPos aUnit aConvert it).length := by
    by_contra hni
    push_neg at hni
    rw [List.getElem?_append_right hni] at h1
    exact hT1B (ht1 ▸ typeId_mem_of_mem_pass B root c.m_Threshold aPos
      aUnit aConvert e1 (List.getElem?_mem h1))
  have hj : (A.flatMap fun t => (scanItem root).filter fun it =>
      it.typeId == t && inspectMatch c.m_Threshold aPos aUnit aConvert it).length ≤ j := by
    by_contra hnj
    push_neg at hnj
    rw [List.getElem?_append_left hnj] at h2
    exact hT2A (ht2 ▸ typeId_mem_of_mem_pass A root c.m_Threshold aPos
      aUnit aConvert e2 (List.getElem?_mem h2))
  omega

/-- C5 witness: a document storing a junction (tag 2) before a wire
(tag 1) still lists the wire match before the junction match under the
filter `[1, 2]`, so the type-1 position 0 precedes the type-2
position 1. -/
theorem C5_filter_priority_order_witness :
    ((({ m_List := [], m_Unit := 0, m_Convert := 0, m_Threshold := 0,
         m_RefPos := (0, 0) } : EE_COLLECTOR).Collect
        (EDA_ITEM.mk 0 0 0 (fun _ _ => false) none (0, 0) ""
          [EDA_ITEM.mk 2 0 0 (fun _ _ => true) none (0, 0) "" [],
           EDA_ITEM.mk 1 0 0 (fun _ _ => true) none (0, 0) "" []])
        ([1] ++ [2]) (0, 0) 0 0).m_List.map EDA_ITEM.typeId = [1, 2]) ∧
      (0 : Nat) < 1 := by
  constructor
  · rfl
  · exact C5_filter_priority_order
      { m_List := [], m_Unit := 0, m_Convert := 0, m_Threshold := 0,
        m_RefPos := (0, 0) }
      (EDA_ITEM.mk 0 0 0 (fun _ _ => false) none (0, 0) ""
        [EDA_ITEM.mk 2 0 0 (fun _ _ => true) none (0, 0) "" [],
         EDA_ITEM.mk 1 0 0 (fun _ _ => true) none (0, 0) "" []])
      [1] [2] 1 2 (0, 0) 0 0 0 1
      (EDA_ITEM.mk 1 0 0 (fun _ _ => true) none (0, 0) "" [])
      (EDA_ITEM.mk 2 0 0 (fun _ _ => true) none (0, 0) "" [])
      (List.mem_singleton.mpr rfl) (List.mem_singleton.mpr rfl)
      (by simp) (by simp) rfl rfl rfl rfl

/-- C6: `IsCorner()` returns true iff the collected set contains exactly
two items, both of a line/wire-segment kind, sharing exactly one
endpoint, namely the tested point; in particular it returns false
whenever the result size differs from 2. -/
theorem C6_isCorner_two_lines_one_shared_endpoint :
    ∀ c : EE_COLLECTOR,
      (c.IsCorner = true ↔
        ∃ a b, c.m_List = [a, b] ∧ a.lineEnds.isSome = true ∧
          b.lineEnds.isSome = true ∧ sharedEndPoints a b = [c.m_RefPos]) ∧
      (c.m_List.length ≠ 2 → c.IsCorner = false) := by
  intro c
  obtain ⟨L, u, cv, th, rp⟩ := c
  rcases L with _ | ⟨a, _ | ⟨b, _ | ⟨x, rest⟩⟩⟩
  · exact ⟨by simp [EE_COLLECTOR.IsCorner], fun _ => rfl⟩
  · exact ⟨by simp [EE_COLLECTOR.IsCorner], fun _ => rfl⟩
  · refine ⟨?_, fun h => absurd rfl h⟩
    simp only [EE_COLLECTOR.IsCorner, Bool.and_eq_true, decide_eq_true_eq]
    constructor
    · rintro ⟨⟨ha, hb⟩, hsh⟩
      exact ⟨a, b, rfl, ha, hb, hsh⟩
    · rintro ⟨a', b', heq, ha, hb, hsh⟩
      obtain ⟨rfl, rfl⟩ : a = a' ∧ b = b' := by simpa using heq
      exact ⟨⟨ha, hb⟩, hsh⟩
  · exact ⟨by simp [EE_COLLECTOR.IsCorner], fun _ => rfl⟩

/-- C6 witness: two wire segments sharing exactly the tested endpoint
form a corner, and a one-element collection never does. -/
theorem C6_isCorner_two_lines_one_shared_endpoint_witness :
    ({ m_List :=
         [EDA_ITEM.mk 1 0 0 (fun _ _ => true) (some ((0, 0), (10, 0)))
            (0, 0) "" [],
          EDA_ITEM.mk 1 0 0 (fun _ _ => true) (some ((0, 0), (0, 10)))
            (0, 0) "" []],
       m_Unit := 0, m_Convert := 0, m_Threshold := 0,
       m_RefPos := (0, 0) } : EE_COLLECTOR).IsCorner = true ∧
    ({ m_List := [EDA_ITEM.mk 1 0 0 (fun _ _ => true)
         (some ((0, 0), (10, 0))) (0, 0) "" []],
       m_Unit := 0, m_Convert := 0, m_Threshold := 0,
       m_RefPos := (0, 0) } : EE_COLLECTOR).IsCorner = false := by
  constructor
  · exact (C6_isCorner_two_lines_one_shared_endpoint _).1.mpr
      ⟨EDA_ITEM.mk 1 0 0 (fun _ _ => true) (some ((0, 0), (10, 0)))
          (0, 0) "" [],
        EDA_ITEM.mk 1 0 0 (fun _ _ => true) (some ((0, 0), (0, 10)))
          (0, 0) "" [],
        rfl, rfl, rfl, by decide⟩
  · exact (C6_isCorner_two_lines_one_shared_endpoint _).2 (by decide)

/-- C8: `ReplaceItem` returns false when the current cursor is out of
range, or when the item at the cursor no longer matches the stored
search specification (stale cache); it returns true exactly when a
matching item sits at the cursor — and then that item's text has been
replaced and the cache marked stale (force search). -/
theorem C8_replaceItem_true_iff_replace_occurred :
    ∀ c : SCH_FIND_COLLECTOR,
      ((c.m_foundIndex < 0 ∨ (c.m_List.length : Int) ≤ c.m_foundIndex) →
        c.ReplaceItem.1 = false) ∧
      (∀ item, c.m_List.get? c.m_foundIndex.toNat = some item →
        textMatches c.m_findReplaceData item.text = false →
        c.ReplaceItem.1 = false) ∧
      (c.ReplaceItem.1 = true ↔
        ∃ item, 0 ≤ c.m_foundIndex ∧
          c.m_foundIndex < (c.m_List.length : Int) ∧
          c.m_List.get? c.m_foundIndex.toNat = some item ∧
          textMatches c.m_findReplaceData item.text = true) ∧
      (∀ item, c.ReplaceItem.1 = true →
        c.m_List.get? c.m_foundIndex.toNat = some item →
        c.ReplaceItem.2.m_List.get? c.m_foundIndex.toNat =
          some (item.withText (performReplace c.m_findReplaceData item.text)) ∧
        c.ReplaceItem.2.m_forceSearch = true) := by
  intro c
  by_cases hv : 0 ≤ c.m_foundIndex ∧ c.m_foundIndex < (c.m_List.length : Int)
  · have hlt : c.m_foundIndex.toNat < c.m_List.length := by omega
    refine ⟨fun hout => absurd hv (by omega), ?_, ?_, ?_⟩
    · intro item' hg' hm'
      unfold SCH_FIND_COLLECTOR.ReplaceItem
      rw [if_pos hv, hg']
      dsimp only
      rw [if_neg (by rw [hm']; exact Bool.false_ne_true)]
    · obtain ⟨item, hg⟩ : ∃ it, c.m_List.get? c.m_foundIndex.toNat = some it :=
        ⟨_, List.get?_eq_get hlt⟩
      unfold SCH_FIND_COLLECTOR.ReplaceItem
      rw [if_pos hv, hg]
      dsimp only
      by_cases hm : textMatches c.m_findReplaceData item.text = true
      · exact iff_of_true (by rw [if_pos hm]) ⟨item, hv.1, hv.2, rfl, hm⟩
      · rw [if_neg hm]
        refine iff_of_false Bool.false_ne_true ?_
        rintro ⟨item', _, _, hg', hm'⟩
        exact hm (by rw [Option.some.inj hg']; exact hm')
    · intro item' htrue hg'
      unfold SCH_FIND_COLLECTOR.ReplaceItem at htrue ⊢
      rw [if_pos hv, hg'] at htrue ⊢
      dsimp only at htrue ⊢
      by_cases hm : textMatches c.m_findReplaceData item'.text = true
      · rw [if_pos hm]
        refine ⟨?_, rfl⟩
        simp only [List.get?_eq_getElem?]
        exact List.getElem?_set_self hlt
      · rw [if_neg hm] at htrue
        exact absurd htrue Bool.false_ne_true
  · refine ⟨?_, ?_, ?_, ?_⟩
    · intro _
      unfold SCH_FIND_COLLECTOR.ReplaceItem
      rw [if_neg hv]
    · intro item hg hm
      unfold SCH_FIND_COLLECTOR.ReplaceItem
      rw [if_neg hv]
    · refine iff_of_false ?_ ?_
      · unfold SCH_FIND_COLLECTOR.ReplaceItem
        rw [if_neg hv]
        exact Bool.false_ne_true
      · rintro ⟨item, h0, h1, _, _⟩
        exact absurd ⟨h0, h1⟩ hv
    · intro item htrue hg
      unfold SCH_FIND_COLLECTOR.ReplaceItem at htrue
      rw [if_neg hv] at htrue
      exact absurd htrue Bool.false_ne_true

/-- C8 witness: with the specification "R1" → "R2", a matching item at
the cursor is replaced (true); a cursor out of range and a non-matching
(stale) item both yield false. -/
theorem C8_replaceItem_true_iff_replace_occurred_witness :
    ∃ (cGood cBad cStale : SCH_FIND_COLLECTOR),
      cGood.ReplaceItem.1 = true ∧
      cBad.ReplaceItem.1 = false ∧
      cStale.ReplaceItem.1 = false := by
  refine ⟨{ m_List := [EDA_ITEM.mk 3 0 0 (fun _ _ => true) none (0, 0) "R1" []],
            m_data := [SCH_FIND_COLLECTOR_DATA.emptyData],
            m_findReplaceData :=
              { m_findString := "R1", m_replaceString := "R2",
                m_matchCase := false, m_wholeWord := false,
                m_replaceTarget := true, m_wrap := false },
            m_foundIndex := 0, m_forceSearch := false, m_lib_hash := 0 },
          { m_List := [EDA_ITEM.mk 3 0 0 (fun _ _ => true) none (0, 0) "R1" []],
            m_data := [SCH_FIND_COLLECTOR_DATA.emptyData],
            m_findReplaceData :=
              { m_findString := "R1", m_replaceString := "R2",
                m_matchCase := false, m_wholeWord := false,
                m_replaceTarget := true, m_wrap := false },
            m_foundIndex := 5, m_forceSearch := false, m_lib_hash := 0 },
          { m_List := [EDA_ITEM.mk 3 0 0 (fun _ _ => true) none (0, 0) "C3" []],
            m_data := [SCH_FIND_COLLECTOR_DATA.emptyData],
            m_findReplaceData :=
              { m_findString := "R1", m_replaceString := "R2",
                m_matchCase := false, m_wholeWord := false,
                m_replaceTarget := true, m_wrap := false },
            m_foundIndex := 0, m_forceSearch := false, m_lib_hash := 0 },
          ?_, ?_, ?_⟩
  · exact (C8_replaceItem_true_iff_replace_occurred _).2.2.1.mpr
      ⟨EDA_ITEM.mk 3 0 0 (fun _ _ => true) none (0, 0) "R1" [],
        by decide, by decide, rfl, by decide⟩
  · exact (C8_replaceItem_true_iff_replace_occurred _).1 (Or.inr (by decide))
  · exact (C8_replaceItem_true_iff_replace_occurred _).2.1
      (EDA_ITEM.mk 3 0 0 (fun _ _ => true) none (0, 0) "C3" []) rfl (by decide)

theorem char_eq_of_toNat_eq {a b : Char} (h : a.toNat = b.toNat) : a = b :=
  Char.ext (UInt32.toNat.inj h)

theorem charListCmp_self : ∀ a : List Char, charListCmp a a = 0 := by
  intro a
  induction a with
  | nil => rfl
  | cons c t ih => simp [charListCmp, ih]

theorem charListCmp_eq_zero_iff :
    ∀ a b : List Char, charListCmp a b = 0 ↔ a = b := by
  intro a
  induction a with
  | nil =>
      intro b
      cases b with
      | nil => simp [charListCmp]
      | cons d u => simp [charListCmp]
  | cons c t ih =>
      intro b
      cases b with
      | nil => simp [charListCmp]
      | cons d u =>
          rcases Nat.lt_trichotomy c.toNat d.toNat with h | h | h
          · have hne : c ≠ d := fun he => by rw [he] at h; exact lt_irrefl _ h
            simp [charListCmp, h, hne]
          · have he : c = d := char_eq_of_toNat_eq h
            subst he
            simp [charListCmp, ih]
          · have hne : c ≠ d := fun he => by rw [he] at h; exact lt_irrefl _ h
            simp [charListCmp, h, Nat.lt_asymm h, hne]

theorem charListCmp_swap : ∀ a b : List Char, charListCmp b a = - charListCmp a b := by
  intro a
  induction a with
  | nil =>
      intro b
      cases b with
      | nil => rfl
      | cons d u => rfl
  | cons c t ih =>
      intro b
      cases b with
      | nil => rfl
      | cons d u =>
          rcases Nat.lt_trichotomy c.toNat d.toNat with h | h | h
          · simp [charListCmp, h, Nat.lt_asymm h]
          · simp [charListCmp, h, ih]
          · simp [charListCmp, h, Nat.lt_asymm h]

theorem charListCmp_neg_trans :
    ∀ a b c : List Char, charListCmp a b < 0 → charListCmp b c < 0 →
      charListCmp a c < 0 := by
  intro a
  induction a with
  | nil =>
      intro b c h1 h2
      cases b with
      | nil => exact h2
      | cons d u =>
          cases c with
          | nil => simp [charListCmp] at h2
          | cons e v => simp [charListCmp]
  | cons x t ih =>
      intro b c h1 h2
      cases b with
      | nil => simp [charListCmp] at h1
      | cons d u =>
          cases c with
          | nil => simp [charListCmp] at h2
          | cons e v =>
              rcases Nat.lt_trichotomy x.toNat d.toNat with hxd | hxd | hxd <;>
                rcases Nat.lt_trichotomy d.toNat e.toNat with hde | hde | hde
              · simp [charListCmp, Nat.lt_trans hxd hde]
              · simp [charListCmp, hde ▸ hxd]
              · simp [charListCmp, hde, Nat.lt_asymm hde] at h2
              · simp [charListCmp, hxd ▸ hde]
              · simp only [charListCmp, hxd, hde, lt_self_iff_false,
                  if_false] at h1 h2 ⊢
                exact ih u v h1 h2
              · simp [charListCmp, hde, Nat.lt_asymm hde] at h2
              · simp [charListCmp, hxd, Nat.lt_asymm hxd] at h1
              · simp [charListCmp, hxd, Nat.lt_asymm hxd] at h1
              · simp [charListCmp, hxd, Nat.lt_asymm hxd] at h1

theorem pinCompare_le_zero_iff (p q : LIB_PIN) :
    LIB_PIN.pinCompare p q ≤ 0 ↔
      (p.m_number < q.m_number ∨
        (p.m_number = q.m_number ∧
          (strCmpNoCase p.m_name q.m_name < 0 ∨
            (strCmpNoCase p.m_name q.m_name = 0 ∧
              (p.m_position.1 < q.m_position.1 ∨
                (p.m_position.1 = q.m_position.1 ∧
                  p.m_position.2 ≤ q.m_position.2)))))) := by
  unfold LIB_PIN.pinCompare
  split_ifs <;> omega

theorem pinCompare_eq_zero_iff (p q : LIB_PIN) :
    LIB_PIN.pinCompare p q = 0 ↔
      (p.m_number = q.m_number ∧ strCmpNoCase p.m_name q.m_name = 0 ∧
        p.m_position.1 = q.m_position.1 ∧ p.m_position.2 = q.m_position.2) := by
  unfold LIB_PIN.pinCompare
  split_ifs <;> omega

theorem pinCompare_swap (p q : LIB_PIN) :
    LIB_PIN.pinCompare q p = - LIB_PIN.pinCompare p q := by
  have hs : strCmpNoCase q.m_name p.m_name =
      - strCmpNoCase p.m_name q.m_name := charListCmp_swap _ _
  unfold LIB_PIN.pinCompare
  simp only [hs]
  split_ifs <;> omega

/-- C9: the pin comparison — lexicographically by pin number, then pin
name case-insensitively, then X position, then Y position — is a total
ordering on pins: it is reflexive (`compare p p = 0`), antisymmetric
(swapping the arguments negates the result), total (one direction is
always ≤ 0) and transitive on ≤, yielding deterministic pin-list
sorting. -/
theorem C9_pinCompare_total_order :
    ∀ p q r : LIB_PIN,
      LIB_PIN.pinCompare p p = 0 ∧
      LIB_PIN.pinCompare q p = - LIB_PIN.pinCompare p q ∧
      (LIB_PIN.pinCompare p q ≤ 0 ∨ LIB_PIN.pinCompare q p ≤ 0) ∧
      (LIB_PIN.pinCompare p q ≤ 0 → LIB_PIN.pinCompare q r ≤ 0 →
        LIB_PIN.pinCompare p r ≤ 0) := by
  intro p q r
  refine ⟨?_, pinCompare_swap p q, ?_, ?_⟩
  · exact (pinCompare_eq_zero_iff p p).mpr
      ⟨rfl, charListCmp_self _, rfl, rfl⟩
  · have hs := pinCompare_swap p q
    omega
  · intro h1 h2
    rw [pinCompare_le_zero_iff] at h1 h2 ⊢
    have hz_pq : strCmpNoCase p.m_name q.m_name = 0 →
        strCmpNoCase p.m_name r.m_name = strCmpNoCase q.m_name r.m_name := by
      intro h
      have he := (charListCmp_eq_zero_iff _ _).mp h
      unfold strCmpNoCase
      rw [he]
    have hz_qr : strCmpNoCase q.m_name r.m_name = 0 →
        strCmpNoCase p.m_name r.m_name = strCmpNoCase p.m_name q.m_name := by
      intro h
      have he := (charListCmp_eq_zero_iff _ _).mp h
      unfold strCmpNoCase
      rw [← he]
    have htr : strCmpNoCase p.m_name q.m_name < 0 →
        strCmpNoCase q.m_name r.m_name < 0 →
        strCmpNoCase p.m_name r.m_name < 0 := charListCmp_neg_trans _ _ _
    omega

/-- C9 witness: three concrete pins ordered by number, name and position
satisfy the two chained comparisons and hence the transitive one. -/
theorem C9_pinCompare_total_order_witness :
    LIB_PIN.pinCompare
      { m_position := (0, 0), m_length := 100, m_orientation := 82,
        m_shape := 0, m_width := 0, m_type := ElectricPinType.PIN_INPUT,
        m_attributes := 0, m_name := "A", m_number := 1,
        m_numTextSize := 50, m_nameTextSize := 50 }
      { m_position := (3, 4), m_length := 100, m_orientation := 82,
        m_shape := 0, m_width := 0, m_type := ElectricPinType.PIN_OUTPUT,
        m_attributes := 0, m_name := "b", m_number := 1,
        m_numTextSize := 50, m_nameTextSize := 50 } ≤ 0 := by
  refine (C9_pinCompare_total_order
    { m_position := (0, 0), m_length := 100, m_orientation := 82,
      m_shape := 0, m_width := 0, m_type := ElectricPinType.PIN_INPUT,
      m_attributes := 0, m_name := "A", m_number := 1,
      m_numTextSize := 50, m_nameTextSize := 50 }
    { m_position := (0, 0), m_length := 100, m_orientation := 82,
      m_shape := 0, m_width := 0, m_type := ElectricPinType.PIN_PASSIVE,
      m_attributes := 0, m_name := "B", m_number := 1,
      m_numTextSize := 50, m_nameTextSize := 50 }
    { m_position := (3, 4), m_length := 100, m_orientation := 82,
      m_shape := 0, m_width := 0, m_type := ElectricPinType.PIN_OUTPUT,
      m_attributes := 0, m_name := "b", m_number := 1,
      m_numTextSize := 50, m_nameTextSize := 50 }).2.2.2 (by decide) (by decide)
